import Mathlib

/-!
Verification of the ec-test-app TUI core against its specification.

The development shallowly embeds the Rust code of `src/debug.rs` and
`src/notifications.rs`: pure functions become Lean functions, the stateful
pieces (log view scroll state, the notification worker loop, the singleton
lifecycle) become explicit state-passing functions or small labelled
transition systems.  Machine integers in the source stay well inside their
ranges (viewport sizes are u16, buffer lengths are bounded by 1000), so they
are modelled as `Nat`; Rust `saturating_sub` on unsigned integers is exactly
Nat subtraction, and `clamp(0, hi)` on an unsigned value is `min _ hi`.
Rust strings are modelled as `List Char`.
-/

/-! ### Ring buffer (`common::SampleBuf`)

Modelled from the spec: `common.rs` (the `SampleBuf` fixed-capacity ring
buffer used by `debug.rs` and `battery.rs`) is not among the provided source
files; the model follows spec section 4.4: "insert(item): evicts index-0
(oldest) before appending if already at length CAP", and "snapshot(): returns
an ordered, oldest-first read-only view". -/

def sbInsert (cap : Nat) (buf : List α) (x : α) : List α :=
  if buf.length = cap then buf.tail ++ [x] else buf ++ [x]

/-- Insert a whole sequence, one element at a time, oldest first. -/
def sbInsertAll (cap : Nat) (buf : List α) (xs : List α) : List α :=
  xs.foldl (sbInsert cap) buf

theorem sbInsert_length_le (cap : Nat) (buf : List α) (x : α) :
    buf.length ≤ (sbInsert cap buf x).length := by
  unfold sbInsert
  split <;> simp [List.length_tail] <;> omega

theorem sbInsert_length_le_cap (cap : Nat) (hcap : 0 < cap) (buf : List α) (x : α)
    (h : buf.length ≤ cap) : (sbInsert cap buf x).length ≤ cap := by
  unfold sbInsert
  split <;> simp [List.length_tail] <;> omega

theorem sbInsertAll_eq_drop (cap : Nat) (hcap : 0 < cap) :
    ∀ (xs buf : List α), buf.length ≤ cap →
      sbInsertAll cap buf xs = (buf ++ xs).drop ((buf ++ xs).length - cap) := by
  intro xs
  induction xs with
  | nil =>
    intro buf hb
    have : buf.length - cap = 0 := by omega
    simp [sbInsertAll, this]
  | cons x rest ih =>
    intro buf hb
    have hstep : sbInsertAll cap buf (x :: rest) = sbInsertAll cap (sbInsert cap buf x) rest := by
      simp [sbInsertAll]
    rw [hstep]
    rcases Nat.lt_or_ge buf.length cap with hlt | hge
    · have hins : sbInsert cap buf x = buf ++ [x] := by
        unfold sbInsert
        simp [Nat.ne_of_lt hlt]
      rw [hins, ih (buf ++ [x]) (by simp; omega)]
      simp [List.append_assoc]
    · have heq : buf.length = cap := Nat.le_antisymm hb hge
      have hne : buf ≠ [] := by
        intro hnil
        rw [hnil] at heq
        simp at heq
        omega
      obtain ⟨a, buf', rfl⟩ := List.exists_cons_of_ne_nil hne
      have hins : sbInsert cap (a :: buf') x = buf' ++ [x] := by
        unfold sbInsert
        simp [heq]
      rw [hins, ih (buf' ++ [x]) (by simp at heq ⊢; omega)]
      have hlen : (buf' ++ [x] ++ rest).length = cap + rest.length := by
        simp at heq ⊢
        omega
      have hlen2 : ((a :: buf') ++ (x :: rest)).length = cap + rest.length + 1 := by
        simp at heq ⊢
        omega
      rw [hlen, hlen2]
      have hd : cap + rest.length + 1 - cap = (cap + rest.length - cap) + 1 := by omega
      rw [hd]
      simp [List.drop_succ_cons, List.append_assoc]

/-- C3: Ring-buffer eviction.  For every capacity `CAP > 0` and insertion
sequence `xs` of length N, the snapshot after inserting everything into an
empty buffer has length `min N CAP` and equals the last `min N CAP` inserted
items in insertion order (`xs.drop (N - CAP)`); moreover a single `insert`
appends when the buffer is below capacity and evicts index 0 (the oldest
element) before appending exactly when the buffer is already at length CAP. -/
theorem c3_ringbuffer_snapshot (cap : Nat) (hcap : 0 < cap) (xs : List α)
    (buf : List α) (x : α) :
    (sbInsertAll cap [] xs).length = min xs.length cap ∧
    sbInsertAll cap [] xs = xs.drop (xs.length - cap) ∧
    (buf.length < cap → sbInsert cap buf x = buf ++ [x]) ∧
    (buf.length = cap → sbInsert cap buf x = buf.tail ++ [x]) := by
  have hmain := sbInsertAll_eq_drop cap hcap xs [] (by simp)
  simp at hmain
  refine ⟨?_, hmain, ?_, ?_⟩
  · rw [hmain]
    simp [List.length_drop]
    omega
  · intro hlt
    unfold sbInsert
    simp [Nat.ne_of_lt hlt]
  · intro heq
    unfold sbInsert
    simp [heq]

/-- Witness for C3 at the spec's own example: capacity 3, inserting
1,2,3,4,5 yields snapshot [3,4,5]; a buffer of length 2 < 3 appends, and a
buffer at length 3 evicts its head before appending. -/
theorem c3_ringbuffer_snapshot_witness :
    (0 : Nat) < 3 ∧
    sbInsertAll 3 [] [1, 2, 3, 4, 5] = ([3, 4, 5] : List Nat) ∧
    sbInsert 3 [1, 2] 9 = ([1, 2, 9] : List Nat) ∧
    sbInsert 3 [1, 2, 3] 9 = ([2, 3, 9] : List Nat) := by
  have h := c3_ringbuffer_snapshot 3 (by decide) ([1, 2, 3, 4, 5] : List Nat) [1, 2] 9
  refine ⟨by decide, h.2.1.trans (by decide), (h.2.2.1 (by decide)).trans (by decide), ?_⟩
  have h2 := c3_ringbuffer_snapshot 3 (by decide) ([] : List Nat) [1, 2, 3] 9
  exact (h2.2.2.2 (by decide)).trans (by decide)

/-! ### Text model

Rendered text (`ratatui::text::Span` and `Line`) is modelled as lists of
styled chunks; only the foreground color of a style is relevant to the
specification (diagnostic lines are Cyan, level fields are colored by
level).  `Line::raw`/`Span::raw` carry no color (`none`). -/

inductive ColorM
  | gray
  | white
  | green
  | yellow
  | red
  | black
  | cyan
deriving DecidableEq

structure SpanM where
  content : List Char
  color : Option ColorM
deriving DecidableEq

abbrev LineM := List SpanM

/-- Length of `format!("{line}")`: the concatenated span contents
(character count; all relevant text is ASCII). -/
def lineLen (l : LineM) : Nat :=
  (l.map (fun s => s.content.length)).sum

/-! ### LogView scroll state (`debug.rs`, `ScrollState` / `LogView`)

`ScrollState.bar : ScrollbarState` is presentation-only (it feeds the
scrollbar widget and never feeds back into `pos`), so it is not modelled.
`pos : usize` and `size : u16` are modelled as `Nat`; `ScrollState` defaults
to `pos = 0, size = u16::MAX = 65535`. -/

def maxLogs : Nat := 1000

structure ScrollStateM where
  pos : Nat
  size : Nat
deriving DecidableEq

structure LogViewM where
  yScroll : ScrollStateM
  xScroll : ScrollStateM
  maxLogLen : Nat
  logs : List LineM
deriving DecidableEq

def lvInit : LogViewM :=
  { yScroll := { pos := 0, size := 65535 }
    xScroll := { pos := 0, size := 65535 }
    maxLogLen := 0
    logs := [] }

/-- `LogView::scroll_up`: `pos.saturating_sub(1)`. -/
def scrollUp (v : LogViewM) : LogViewM :=
  { v with yScroll := { v.yScroll with pos := v.yScroll.pos - 1 } }

/-- `LogView::scroll_down`: if the logs overflow the viewport,
`pos.saturating_add(1).clamp(0, logs.len() - size)`. -/
def scrollDown (v : LogViewM) : LogViewM :=
  if v.yScroll.size < v.logs.length then
    { v with
      yScroll :=
        { v.yScroll with pos := min (v.yScroll.pos + 1) (v.logs.length - v.yScroll.size) } }
  else v

/-- `LogView::scroll_left`: `pos.saturating_sub(1)` on the x axis. -/
def scrollLeft (v : LogViewM) : LogViewM :=
  { v with xScroll := { v.xScroll with pos := v.xScroll.pos - 1 } }

/-- `LogView::scroll_right`: clamp against `max_log_len - size` on the x axis. -/
def scrollRight (v : LogViewM) : LogViewM :=
  if v.xScroll.size < v.maxLogLen then
    { v with
      xScroll :=
        { v.xScroll with pos := min (v.xScroll.pos + 1) (v.maxLogLen - v.xScroll.size) } }
  else v

/-- `LogView::update_scroll(new_lines)`.  The two `content_length` updates
touch only the unmodelled scrollbar widgets; the state change is the
sticky-bottom rule: when the logs overflow the viewport and
`pos == height.saturating_sub(new_lines)`, jump `pos` to `height`. -/
def updateScroll (v : LogViewM) (newLines : Nat) : LogViewM :=
  if v.yScroll.size < v.logs.length then
    if v.yScroll.pos = (v.logs.length - v.yScroll.size) - newLines then
      { v with yScroll := { v.yScroll with pos := v.logs.length - v.yScroll.size } }
    else v
  else v

/-- Body of the per-line loop in `LogView::log_frame`: track the maximum
rendered line width and insert the line into the bounded log buffer. -/
def lfStep (acc : LogViewM) (line : LineM) : LogViewM :=
  { acc with
    maxLogLen := max acc.maxLogLen (lineLen line)
    logs := sbInsert maxLogs acc.logs line }

/-- `LogView::log_meta`: insert one Cyan `<msg>` diagnostic line, then
`update_scroll(1)`. -/
def logMeta (v : LogViewM) (msg : List Char) : LogViewM :=
  updateScroll
    { v with logs := sbInsert maxLogs v.logs [⟨'<' :: (msg ++ ['>']), some ColorM.cyan⟩] } 1

/-- `LogView::log_frame`: a full frame inserts each rendered line and then
runs `update_scroll(lines)`; a decode error becomes a `log_meta` diagnostic;
`Ok(None)` (unexpected EOF) does nothing. -/
def logFrame (v : LogViewM) (r : Except (List Char) (Option (List LineM))) : LogViewM :=
  match r with
  | .ok (some log) => updateScroll (log.foldl lfStep v) log.length
  | .ok none => v
  | .error e => logMeta v e

/-- `LogView::render` stores the inner area's height and width into the two
scroll states before drawing (the viewport-resize operation). -/
def renderResize (v : LogViewM) (h w : Nat) : LogViewM :=
  { v with
    yScroll := { v.yScroll with size := h }
    xScroll := { v.xScroll with size := w } }

/-- Scrollable maximum offset: `max 0 (extent - size)` (Nat subtraction). -/
def maxOffset (extent size : Nat) : Nat := extent - size

/-- The spec's scroll-position invariant for one axis. -/
abbrev scrollInv (pos size extent : Nat) : Prop := pos ≤ maxOffset extent size

/-- Both axes of the invariant for a whole `LogView`. -/
abbrev lvInv (v : LogViewM) : Prop :=
  scrollInv v.yScroll.pos v.yScroll.size v.logs.length ∧
  scrollInv v.xScroll.pos v.xScroll.size v.maxLogLen

theorem foldl_lfStep_proj (log : List LineM) : ∀ v : LogViewM,
    (log.foldl lfStep v).yScroll = v.yScroll ∧
    (log.foldl lfStep v).xScroll = v.xScroll ∧
    v.logs.length ≤ (log.foldl lfStep v).logs.length ∧
    v.maxLogLen ≤ (log.foldl lfStep v).maxLogLen := by
  induction log with
  | nil => intro v; simp
  | cons l rest ih =>
    intro v
    have h := ih (lfStep v l)
    refine ⟨h.1, h.2.1, le_trans ?_ h.2.2.1, le_trans ?_ h.2.2.2⟩
    · exact sbInsert_length_le maxLogs v.logs l
    · exact le_max_left _ _

theorem updateScroll_inv (v : LogViewM) (k : Nat)
    (hy : scrollInv v.yScroll.pos v.yScroll.size v.logs.length) :
    (updateScroll v k).xScroll = v.xScroll ∧
    (updateScroll v k).logs = v.logs ∧
    (updateScroll v k).maxLogLen = v.maxLogLen ∧
    (updateScroll v k).yScroll.size = v.yScroll.size ∧
    scrollInv (updateScroll v k).yScroll.pos (updateScroll v k).yScroll.size
      (updateScroll v k).logs.length := by
  unfold updateScroll
  simp only [scrollInv, maxOffset] at hy ⊢
  split
  · split <;> simp <;> omega
  · simp; omega

theorem logFrame_inv (v : LogViewM) (r : Except (List Char) (Option (List LineM)))
    (hy : scrollInv v.yScroll.pos v.yScroll.size v.logs.length)
    (hx : scrollInv v.xScroll.pos v.xScroll.size v.maxLogLen) :
    lvInv (logFrame v r) := by
  match r with
  | .ok none => exact ⟨hy, hx⟩
  | .ok (some log) =>
    have hp := foldl_lfStep_proj log v
    have hy' : scrollInv (log.foldl lfStep v).yScroll.pos (log.foldl lfStep v).yScroll.size
        (log.foldl lfStep v).logs.length := by
      rw [hp.1]
      simp only [scrollInv, maxOffset] at hy ⊢
      omega
    have hu := updateScroll_inv (log.foldl lfStep v) log.length hy'
    constructor
    · exact hu.2.2.2.2
    · show scrollInv _ _ _
      rw [show (logFrame v (.ok (some log))) = updateScroll (log.foldl lfStep v) log.length
            from rfl] at *
      rw [hu.1, hu.2.2.1, hp.2.1]
      simp only [scrollInv, maxOffset] at hx ⊢
      omega
  | .error e =>
    show lvInv (logMeta v e)
    unfold logMeta
    have hlen := sbInsert_length_le maxLogs v.logs [⟨'<' :: (e ++ ['>']), some ColorM.cyan⟩]
    have hy' : scrollInv v.yScroll.pos v.yScroll.size
        (sbInsert maxLogs v.logs [⟨'<' :: (e ++ ['>']), some ColorM.cyan⟩]).length := by
      simp only [scrollInv, maxOffset] at hy ⊢
      omega
    have hu := updateScroll_inv
      { v with logs := sbInsert maxLogs v.logs [⟨'<' :: (e ++ ['>']), some ColorM.cyan⟩] } 1 hy'
    refine ⟨hu.2.2.2.2, ?_⟩
    show scrollInv _ _ _
    rw [hu.1, hu.2.2.1]
    exact hx

/-- C2 (amended): every `LogView` operation other than the viewport resize in
`render` preserves the scroll invariant `0 ≤ pos ≤ max 0 (extent - size)` on
both axes (`pos ≥ 0` is inherent to the unsigned type). -/
theorem c2_scroll_inv_preserved (v : LogViewM) (r : Except (List Char) (Option (List LineM)))
    (k : Nat) (e : List Char)
    (hy : scrollInv v.yScroll.pos v.yScroll.size v.logs.length)
    (hx : scrollInv v.xScroll.pos v.xScroll.size v.maxLogLen) :
    lvInv (scrollUp v) ∧ lvInv (scrollDown v) ∧ lvInv (scrollLeft v) ∧
    lvInv (scrollRight v) ∧ lvInv (updateScroll v k) ∧ lvInv (logFrame v r) ∧
    lvInv (logMeta v e) := by
  have hup : lvInv (scrollUp v) := by
    refine ⟨?_, hx⟩
    show scrollInv (v.yScroll.pos - 1) v.yScroll.size v.logs.length
    simp only [scrollInv, maxOffset] at hy ⊢
    omega
  have hdown : lvInv (scrollDown v) := by
    unfold scrollDown
    split
    · refine ⟨?_, hx⟩
      simp only [scrollInv, maxOffset] at hy ⊢
      omega
    · exact ⟨hy, hx⟩
  have hleft : lvInv (scrollLeft v) := by
    refine ⟨hy, ?_⟩
    show scrollInv (v.xScroll.pos - 1) v.xScroll.size v.maxLogLen
    simp only [scrollInv, maxOffset] at hx ⊢
    omega
  have hright : lvInv (scrollRight v) := by
    unfold scrollRight
    split
    · refine ⟨hy, ?_⟩
      simp only [scrollInv, maxOffset] at hx ⊢
      omega
    · exact ⟨hy, hx⟩
  have hupd : lvInv (updateScroll v k) := by
    have hu := updateScroll_inv v k hy
    refine ⟨hu.2.2.2.2, ?_⟩
    show scrollInv _ _ _
    rw [hu.1, hu.2.2.1]
    exact hx
  exact ⟨hup, hdown, hleft, hright, hupd, logFrame_inv v r hy hx,
    logFrame_inv v (.error e) hy hx⟩

/-- Witness for C2's preservation theorem at the initial `LogView` state. -/
theorem c2_scroll_inv_preserved_witness :
    scrollInv lvInit.yScroll.pos lvInit.yScroll.size lvInit.logs.length ∧
    lvInv (scrollUp lvInit) ∧ lvInv (scrollDown lvInit) ∧ lvInv (scrollLeft lvInit) ∧
    lvInv (scrollRight lvInit) ∧ lvInv (updateScroll lvInit 3) ∧
    lvInv (logFrame lvInit (Except.ok none)) ∧ lvInv (logMeta lvInit []) :=
  ⟨by decide, c2_scroll_inv_preserved lvInit (Except.ok none) 3 [] (by decide) (by decide)⟩

/-- A single-span line standing in for one rendered log line. -/
def dummyLine : LineM := [⟨['x'], none⟩]

/-- The user-drivable / event-driven operations on a `LogView`: a decoded
frame of `k` rendered lines arriving (`log_frame`), the viewport resize that
`render` performs, and the four arrow-key scrolls. -/
inductive LVOp
  | frame (k : Nat)
  | resize (h w : Nat)
  | up
  | down
  | left
  | right
deriving DecidableEq

def lvStep (v : LogViewM) : LVOp → LogViewM
  | .frame k => logFrame v (.ok (some (List.replicate k dummyLine)))
  | .resize h w => renderResize v h w
  | .up => scrollUp v
  | .down => scrollDown v
  | .left => scrollLeft v
  | .right => scrollRight v

def lvRun (ops : List LVOp) : LogViewM := ops.foldl lvStep lvInit

/-- The operation sequence refuting C2 as stated: render at height 10,
receive 100 single-line frames (position auto-follows the tail to 90), then
the terminal is enlarged and `render` stores height 50. -/
def c2Trace : List LVOp :=
  ([LVOp.resize 10 80] ++ List.replicate 100 (LVOp.frame 1)) ++ [LVOp.resize 50 80]

set_option maxRecDepth 40000 in
/-- C2 counterexample: after the reachable trace `c2Trace` the vertical
scroll position is 90 while the scrollable maximum is `100 - 50 = 50`, so
`pos ≤ max 0 (content_extent - viewport_extent)` fails right after the
viewport-resize operation of `render`. -/
theorem c2_resize_counterexample :
    (lvRun c2Trace).yScroll.pos = 90 ∧
    (lvRun c2Trace).logs.length = 100 ∧
    (lvRun c2Trace).yScroll.size = 50 ∧
    ¬ scrollInv (lvRun c2Trace).yScroll.pos (lvRun c2Trace).yScroll.size
        (lvRun c2Trace).logs.length := by
  decide

/-- A `LogView` that has buffered 995 single-span lines at viewport height
10, with the vertical position at `p` (995 single-line frames received while
tracking the tail leave `pos = 985`, the maximum scrollable offset). -/
def c1Base (p : Nat) : LogViewM :=
  { yScroll := { pos := p, size := 10 }
    xScroll := { pos := 0, size := 65535 }
    maxLogLen := 1
    logs := List.replicate 995 dummyLine }

/-- `c1Base p` after `log_frame` on one decoded frame of 7 rendered lines:
the ring buffer caps at `MAX_LOGS = 1000`. -/
def c1After (p : Nat) : LogViewM :=
  logFrame (c1Base p) (.ok (some (List.replicate 7 dummyLine)))

set_option maxRecDepth 200000 in
/-- C1 evaluation at the failing input: with 995 buffered lines and viewport
height 10, `pos = 985` is exactly the maximum scrollable offset; a 7-line
frame then caps the buffer at 1000, so the new maximum offset is 990, yet
`update_scroll` leaves `pos` at `985` (a tail-tracking user is left behind),
while from `pos = 983 < 985` (a user strictly above the bottom) it jumps
`pos` to `990` (the user is yanked to the bottom) — both contradicting the
sticky-bottom claim and the code's own comment. -/
theorem c1_sticky_bottom_eval :
    (c1Base 985).yScroll.pos
        = maxOffset (c1Base 985).logs.length (c1Base 985).yScroll.size ∧
    (c1After 985).logs.length = 1000 ∧
    maxOffset (c1After 985).logs.length (c1After 985).yScroll.size = 990 ∧
    (c1After 985).yScroll.pos = 985 ∧
    (c1Base 983).yScroll.pos
        < maxOffset (c1Base 983).logs.length (c1Base 983).yScroll.size ∧
    (c1After 983).yScroll.pos = 990 := by
  decide

/-! ### Defmt frame rendering (`debug.rs`, `DefmtHandler`)

The defmt stream decoder itself lives in the external `defmt_decoder` crate;
a decode attempt's three possible outcomes are therefore modelled abstractly
(`DecodeOutcome`), while `frame2lines` / `read_log` / `log_frame` — the code
under `src/` — are embedded.  A decoded `Frame` is modelled by its displayed
message, its optional displayed timestamp and its optional level name. -/

structure FrameM where
  message : List Char
  timestamp : Option (List Char)
  level : Option (List Char)

/-- `str::lines` leaves a bare trailing carriage return alone, but removes
the `'\r'` of an `"\r\n"` ending, i.e. from every segment that was
terminated by `'\n'`. -/
def stripCR (s : List Char) : List Char :=
  if s.getLast? = some '\r' then s.dropLast else s

/-- Worker for `rustLines`: `acc` holds the current segment reversed. -/
def linesGo (acc : List Char) : List Char → List (List Char)
  | [] => [acc.reverse]
  | c :: rest =>
    if c = '\n' then
      match rest with
      | [] => [stripCR acc.reverse]
      | _ :: _ => stripCR acc.reverse :: linesGo [] rest
    else linesGo (c :: acc) rest

/-- Rust `str::lines()`: split at `'\n'` (or `"\r\n"`), the final line
ending being optional; the empty string yields no lines. -/
def rustLines : List Char → List (List Char)
  | [] => []
  | c :: rest => linesGo [] (c :: rest)

theorem linesGo_ne_nil (s : List Char) : ∀ acc : List Char, linesGo acc s ≠ [] := by
  induction s with
  | nil => intro acc; simp [linesGo]
  | cons c rest ih =>
    intro acc
    simp only [linesGo]
    split
    · match rest with
      | [] => simp
      | _ :: _ => simp
    · exact ih (c :: acc)

/-- The message always gets one trailing space appended before splitting, so
the split is never empty. -/
theorem rustLines_msg_ne_nil (m : List Char) : rustLines (m ++ [' ']) ≠ [] := by
  match m with
  | [] => simp [rustLines, linesGo, stripCR]
  | c :: rest =>
    show linesGo [] (c :: (rest ++ [' '])) ≠ []
    exact linesGo_ne_nil _ []

/-- Displayed timestamp column: `display_timestamp().map_or(" ", |ts| format!("{ts} "))`. -/
def tsText : Option (List Char) → List Char
  | none => [' ']
  | some t => t ++ [' ']

/-- Level column text: `level().map_or(" ", |l| l.as_str().to_uppercase())`. -/
def levelText : Option (List Char) → List Char
  | none => [' ']
  | some l => l.map Char.toUpper

/-- `DefmtHandler::level_color`. -/
def levelColor (level : List Char) : ColorM :=
  if level = "TRACE".toList then .gray
  else if level = "DEBUG".toList then .white
  else if level = "INFO".toList then .green
  else if level = "WARN".toList then .yellow
  else if level = "ERROR".toList then .red
  else .black

/-- `format!("{level:<7}")`: left-align, pad with spaces to width 7. -/
def padTo7 (s : List Char) : List Char :=
  s ++ List.replicate (7 - s.length) ' '

/-- First rendered line: timestamp span, colored 7-column level span, first
message segment. -/
def firstLine (f : FrameM) (m0 : List Char) : LineM :=
  [⟨tsText f.timestamp, none⟩,
   ⟨padTo7 (levelText f.level), some (levelColor (levelText f.level))⟩,
   ⟨m0, none⟩]

/-- Continuation line: `format!("{:pad$}{span}", "", pad = ts_len + 7)`. -/
def contLine (f : FrameM) (seg : List Char) : LineM :=
  [⟨List.replicate ((tsText f.timestamp).length + 7) ' ' ++ seg, none⟩]

/-- `DefmtHandler::frame2lines`.  The source indexes `msg[0]` after
splitting `format!("{} ", display_message())` on line breaks; the `none`
branch models the panic that indexing an empty split would raise. -/
def frame2lines (f : FrameM) : Option (List LineM) :=
  match rustLines (f.message ++ [' ']) with
  | [] => none
  | m0 :: rest => some (firstLine f m0 :: rest.map (contLine f))

/-- C10: `frame2lines` never panics and returns at least one line: appending
the trailing space before splitting guarantees the split is non-empty, so
the `msg[0]` index is in bounds even for an empty message, and every
continuation line is left-padded by the timestamp width plus the fixed
7-column level field. -/
theorem c10_frame2lines_total (f : FrameM) :
    ∃ m0 rest, rustLines (f.message ++ [' ']) = m0 :: rest ∧
      frame2lines f = some (firstLine f m0 :: rest.map (contLine f)) ∧
      (firstLine f m0 :: rest.map (contLine f)).length
        = (rustLines (f.message ++ [' '])).length ∧
      ∀ seg : List Char,
        contLine f seg
          = [⟨List.replicate ((tsText f.timestamp).length + 7) ' ' ++ seg, none⟩] := by
  match hsplit : rustLines (f.message ++ [' ']) with
  | [] => exact absurd hsplit (rustLines_msg_ne_nil f.message)
  | m0 :: rest =>
    refine ⟨m0, rest, rfl, ?_, by simp, fun seg => rfl⟩
    unfold frame2lines
    rw [hsplit]

/-- Outcome of one `StreamDecoder::decode()` attempt (the decoder itself is
the external `defmt_decoder` collaborator). -/
inductive DecodeOutcome
  | ok (f : FrameM)
  | unexpectedEof
  | malformed

/-- The diagnostic text `read_log` produces for `DecodeError::Malformed`. -/
def malformedMsg : List Char := "Received malformed defmt packet".toList

/-- Total variant of `frame2lines` used inside the pipeline; C10 proves the
`Option` is always `some`, so the default is never taken. -/
def frame2linesD (f : FrameM) : List LineM := (frame2lines f).getD []

/-- `DefmtHandler::read_log`: buffer the delivered bytes, attempt one decode;
`Ok(frame)` renders it, `UnexpectedEof` yields `Ok(None)`, `Malformed` yields
the recoverable error. -/
def readLog : DecodeOutcome → Except (List Char) (Option (List LineM))
  | .ok f => .ok (some (frame2linesD f))
  | .unexpectedEof => .ok none
  | .malformed => .error malformedMsg

/-- The Cyan `<msg>` line `log_meta` inserts. -/
def metaLine (msg : List Char) : LineM := [⟨'<' :: (msg ++ ['>']), some ColorM.cyan⟩]

/-- `Debug` tab state: the optionally attached decoder handle, the event
receiver's queue of pending deliveries (each either raw bytes standing for a
decode attempt, or a sampling-callback error), and the log view. -/
structure DebugM where
  defmt : Option Unit
  rxQueue : List (Except (List Char) DecodeOutcome)
  view : LogViewM

/-- Body of the drain loop in `Debug::update`: `Ok(raw)` goes through
`read_log` then `log_frame`; a callback error goes to `log_meta`. -/
def processItem (v : LogViewM) : Except (List Char) DecodeOutcome → LogViewM
  | .ok out => logFrame v (readLog out)
  | .error e => logMeta v e

/-- `Debug::update`: only when a decoder is attached, repeatedly `receive()`
until the queue is empty, processing each delivery in order. -/
def debugUpdate (d : DebugM) : DebugM :=
  match d.defmt with
  | some _ => { d with rxQueue := [], view := d.rxQueue.foldl processItem d.view }
  | none => d

theorem updateScroll_keeps (v : LogViewM) (k : Nat) :
    (updateScroll v k).logs = v.logs ∧ (updateScroll v k).xScroll = v.xScroll ∧
    (updateScroll v k).maxLogLen = v.maxLogLen := by
  unfold updateScroll
  split
  · split <;> simp
  · simp

theorem foldl_lfStep_logs (log : List LineM) : ∀ v : LogViewM,
    (log.foldl lfStep v).logs = log.foldl (sbInsert maxLogs) v.logs := by
  induction log with
  | nil => intro v; simp
  | cons l rest ih =>
    intro v
    show (rest.foldl lfStep (lfStep v l)).logs = _
    rw [ih (lfStep v l)]
    rfl

/-- C4: decode-result handling.  `UnexpectedEof` produces no output and no
error (the log view is untouched); `Malformed` becomes a recoverable error
rendered as exactly one inline Cyan diagnostic line; a successful decode
appends exactly the one frame's rendered lines; and `Debug::update` never
detaches the decoder, which stays callable on the next delivery. -/
theorem c4_decode_result_handling (d : DebugM) (v : LogViewM) (f : FrameM)
    (hatt : d.defmt = some ()) :
    readLog DecodeOutcome.unexpectedEof = Except.ok none ∧
    processItem v (Except.ok DecodeOutcome.unexpectedEof) = v ∧
    readLog DecodeOutcome.malformed = Except.error malformedMsg ∧
    (processItem v (Except.ok DecodeOutcome.malformed)).logs
      = sbInsert maxLogs v.logs (metaLine malformedMsg) ∧
    (∃ ls, frame2lines f = some ls ∧ ls ≠ [] ∧
      (processItem v (Except.ok (DecodeOutcome.ok f))).logs
        = ls.foldl (sbInsert maxLogs) v.logs) ∧
    (debugUpdate d).defmt = d.defmt := by
  refine ⟨rfl, rfl, rfl, ?_, ?_, ?_⟩
  · show (logMeta v malformedMsg).logs = _
    unfold logMeta
    exact (updateScroll_keeps _ 1).1
  · match hsplit : rustLines (f.message ++ [' ']) with
    | [] => exact absurd hsplit (rustLines_msg_ne_nil f.message)
    | m0 :: rest =>
      have hsome : frame2lines f = some (firstLine f m0 :: rest.map (contLine f)) := by
        unfold frame2lines
        rw [hsplit]
      refine ⟨firstLine f m0 :: rest.map (contLine f), hsome, by simp, ?_⟩
      show (logFrame v (readLog (DecodeOutcome.ok f))).logs = _
      have hD : frame2linesD f = firstLine f m0 :: rest.map (contLine f) := by
        unfold frame2linesD
        rw [hsome]
        rfl
      show (logFrame v (Except.ok (some (frame2linesD f)))).logs = _
      rw [hD]
      show (updateScroll ((firstLine f m0 :: rest.map (contLine f)).foldl lfStep v) _).logs = _
      rw [(updateScroll_keeps _ _).1, foldl_lfStep_logs]
  · rw [debugUpdate, hatt]

/-- Witness for C4 at a concrete detached-free state: an attached `Debug`
with an empty queue, the initial log view, and the empty-message frame. -/
theorem c4_decode_result_handling_witness :
    readLog DecodeOutcome.unexpectedEof = Except.ok none ∧
    processItem lvInit (Except.ok DecodeOutcome.unexpectedEof) = lvInit ∧
    readLog DecodeOutcome.malformed = Except.error malformedMsg ∧
    (processItem lvInit (Except.ok DecodeOutcome.malformed)).logs
      = sbInsert maxLogs lvInit.logs (metaLine malformedMsg) ∧
    (∃ ls, frame2lines ⟨[], none, none⟩ = some ls ∧ ls ≠ [] ∧
      (processItem lvInit (Except.ok (DecodeOutcome.ok ⟨[], none, none⟩))).logs
        = ls.foldl (sbInsert maxLogs) lvInit.logs) ∧
    (debugUpdate ⟨some (), [], lvInit⟩).defmt = (⟨some (), [], lvInit⟩ : DebugM).defmt :=
  c4_decode_result_handling ⟨some (), [], lvInit⟩ lvInit ⟨[], none, none⟩ rfl

/-- A detached `Debug` tab with one pending delivery. -/
def c9Detached : DebugM :=
  { defmt := none, rxQueue := [Except.ok DecodeOutcome.unexpectedEof], view := lvInit }

/-- C9 counterexample: with no decoder attached, `Debug::update` makes no
`receive()` call at all — the tick ends with the queue still holding its
value, refuting "on every UI tick the consumer drains the receiver's entire
queue". -/
theorem c9_detached_counterexample :
    c9Detached.rxQueue ≠ [] ∧
    debugUpdate c9Detached = c9Detached ∧
    (debugUpdate c9Detached).rxQueue = [Except.ok DecodeOutcome.unexpectedEof] := by
  refine ⟨by simp [c9Detached], rfl, rfl⟩

/-- C9 (amended): on every UI tick on which a decoder is attached,
`Debug::update` drains the receiver's entire queue, processing every queued
value in order before the tick ends; when no decoder is attached it performs
no receive call and leaves the queue intact — so the consumer never drops a
queued value. -/
theorem c9_drain_when_attached (d dDet : DebugM)
    (hatt : d.defmt = some ()) (hdet : dDet.defmt = none) :
    (debugUpdate d).rxQueue = [] ∧
    (debugUpdate d).view = d.rxQueue.foldl processItem d.view ∧
    (debugUpdate d).defmt = d.defmt ∧
    debugUpdate dDet = dDet := by
  rw [debugUpdate, hatt, debugUpdate, hdet]
  exact ⟨rfl, rfl, rfl, rfl⟩

/-- Witness for C9's amended theorem at concrete states: one attached state
with a queued malformed delivery, and one detached state. -/
theorem c9_drain_when_attached_witness :
    (debugUpdate ⟨some (), [Except.ok DecodeOutcome.malformed], lvInit⟩).rxQueue = [] ∧
    (debugUpdate ⟨some (), [Except.ok DecodeOutcome.malformed], lvInit⟩).view
      = [Except.ok DecodeOutcome.malformed].foldl processItem lvInit ∧
    (debugUpdate ⟨some (), [Except.ok DecodeOutcome.malformed], lvInit⟩).defmt
      = (⟨some (), [Except.ok DecodeOutcome.malformed], lvInit⟩ : DebugM).defmt ∧
    debugUpdate ⟨none, [], lvInit⟩ = (⟨none, [], lvInit⟩ : DebugM) :=
  c9_drain_when_attached ⟨some (), [Except.ok DecodeOutcome.malformed], lvInit⟩
    ⟨none, [], lvInit⟩ rfl rfl

/-! ### Notification service (`notifications.rs`)

The singleton lifecycle is sequentialized: the atomic compare-and-set makes
`Notifications::new` behave, with respect to the process-wide flag, like the
net-effect function `notifNew` below, parameterized by the native
initialization status the driver would return.  `nativeCleanups` counts
`CleanupNotification` calls so that exactly-once release is expressible. -/

structure NotifState where
  flagActive : Bool
  nativeCleanups : Nat
deriving DecidableEq

inductive NewResult
  | ok
  | errAlreadyExists
  | errNativeInit
deriving DecidableEq

/-- `Notifications::new()`: compare-and-set the flag from false to true; on
success run native init — status 0 keeps the service, nonzero stores the
flag back to false and errors; a failed compare-and-set errors immediately. -/
def notifNew (s : NotifState) (nativeStatus : Int) : NewResult × NotifState :=
  if s.flagActive then (.errAlreadyExists, s)
  else if nativeStatus = 0 then (.ok, { s with flagActive := true })
  else (.errNativeInit, { s with flagActive := false })

/-- `impl Drop for Notifications`: release the native resource once and
clear the process-wide flag (Rust runs `drop` exactly once per handle). -/
def notifDrop (s : NotifState) : NotifState :=
  { flagActive := false, nativeCleanups := s.nativeCleanups + 1 }

/-- C5: singleton construction.  `new()` errors when an instance is already
active; errors when native initialization returns nonzero and on that path
the flag ends released so an immediately following `new()` succeeds;
otherwise it succeeds with the flag held; and dropping the handle releases
the native resource exactly once and clears the flag. -/
theorem c5_singleton_lifecycle (s : NotifState) (res : Int) :
    (s.flagActive = true → notifNew s res = (.errAlreadyExists, s)) ∧
    (s.flagActive = false → res ≠ 0 →
      (notifNew s res).1 = .errNativeInit ∧
      (notifNew s res).2.flagActive = false ∧
      (notifNew (notifNew s res).2 0).1 = .ok ∧
      (notifNew (notifNew s res).2 0).2.flagActive = true) ∧
    (s.flagActive = false → res = 0 →
      notifNew s res = (.ok, { s with flagActive := true })) ∧
    (notifDrop s).flagActive = false ∧
    (notifDrop s).nativeCleanups = s.nativeCleanups + 1 := by
  refine ⟨?_, ?_, ?_, rfl, rfl⟩
  · intro h
    simp [notifNew, h]
  · intro h hres
    simp [notifNew, h, hres]
  · intro h hres
    simp [notifNew, h, hres]

/-- Witness for C5: from the quiescent state, a failed native init releases
the flag and a retry succeeds; from an active state, `new()` is refused;
dropping clears the flag with one cleanup call. -/
theorem c5_singleton_lifecycle_witness :
    ((⟨false, 0⟩ : NotifState).flagActive = false → (1 : Int) ≠ 0 →
      (notifNew ⟨false, 0⟩ 1).1 = .errNativeInit ∧
      (notifNew ⟨false, 0⟩ 1).2.flagActive = false ∧
      (notifNew (notifNew ⟨false, 0⟩ 1).2 0).1 = .ok ∧
      (notifNew (notifNew ⟨false, 0⟩ 1).2 0).2.flagActive = true) ∧
    ((⟨true, 0⟩ : NotifState).flagActive = true →
      notifNew ⟨true, 0⟩ 0 = (.errAlreadyExists, ⟨true, 0⟩)) ∧
    (notifDrop ⟨true, 0⟩).flagActive = false ∧
    (notifDrop ⟨true, 0⟩).nativeCleanups = 1 :=
  ⟨(c5_singleton_lifecycle ⟨false, 0⟩ 1).2.1,
   (c5_singleton_lifecycle ⟨true, 0⟩ 0).1,
   (c5_singleton_lifecycle ⟨true, 0⟩ 0).2.2.2.1,
   (c5_singleton_lifecycle ⟨true, 0⟩ 0).2.2.2.2⟩

/-! ### `EventRx::receive` (`notifications.rs`)

A `sync_channel` receiver from the single consumer's side: the queued
values, plus whether the worker (the sending side) is still alive.
`try_recv` yields buffered data first even if the sender has gone; only an
empty, sender-dropped channel reports `Disconnected`. -/

structure ChanState (T : Type) where
  queue : List T
  workerAlive : Bool

inductive RecvOutcome (T : Type)
  | got (x : T)
  | noData
  | panicked (msg : List Char)

/-- The panic message `receive` uses on a disconnected channel. -/
def disconnectMsg : List Char := "Polled dropped notification service".toList

/-- `EventRx::receive`: non-blocking `try_recv`; `Ok(data)` becomes
`Some(data)`, `Empty` becomes `None`, `Disconnected` panics. -/
def receiveM (c : ChanState T) : RecvOutcome T × ChanState T :=
  match c.queue with
  | x :: rest => (.got x, { c with queue := rest })
  | [] =>
    if c.workerAlive then (.noData, c)
    else (.panicked disconnectMsg, c)

/-- C6: `receive()` returns the next queued value when the queue is
non-empty, returns none when the queue is empty but the worker is alive, and
panics (fatal) when the queue is empty and disconnected because the worker
terminated. -/
theorem c6_receive_semantics (T : Type) (x : T) (q : List T) (alive : Bool) :
    receiveM ⟨x :: q, alive⟩ = (.got x, ⟨q, alive⟩) ∧
    receiveM (⟨[], true⟩ : ChanState T) = (.noData, ⟨[], true⟩) ∧
    receiveM (⟨[], false⟩ : ChanState T) = (.panicked disconnectMsg, ⟨[], false⟩) :=
  ⟨rfl, rfl, rfl⟩

/-! ### Worker loop (`Notifications::event_receiver`)

One iteration of the spawned worker: gate check, one blocking wait mapped
through `Event::try_from` (unknown codes are discarded), callback, push.
The outcome type has explicit `panicked` / `reportedError` variants so that
"exits silently, without panicking and without reporting an error" is a
statement about the model rather than about its absence. -/

inductive EventM
  | any
  | dbgFrameAvailable
deriving DecidableEq

/-- `Event::try_from(u32)`: 0 and 20 are mapped, everything else is an
unknown event. -/
def eventFromCode (code : Nat) : Option EventM :=
  if code = 0 then some .any
  else if code = 20 then some .dbgFrameAvailable
  else none

inductive IterOutcome (T : Type)
  | blockedOnGate
  | discardedUnknown
  | delivered (data : T)
  | exitedSilently
  | panicked
  | reportedError
deriving DecidableEq

/-- One iteration of the worker loop: while the gate is closed the thread
blocks; a wait returning an unmapped code is silently discarded; otherwise
the callback's value is pushed — and a failed push (consumer dropped the
receiving end) breaks out of the loop. -/
def workerIter (running : Bool) (code : Nat) (produce : EventM → T)
    (consumerAlive : Bool) : IterOutcome T :=
  if running = false then .blockedOnGate
  else
    match eventFromCode code with
    | none => .discardedUnknown
    | some e => if consumerAlive then .delivered (produce e) else .exitedSilently

/-- C7: graceful worker shutdown.  When the worker is running, the wait
returns a mapped event, and the push fails because the consumer dropped its
receiving end, the iteration ends the thread silently — it neither panics
nor reports an error. -/
theorem c7_worker_silent_exit (T : Type) (code : Nat) (produce : EventM → T)
    (e : EventM) (hmapped : eventFromCode code = some e) :
    workerIter true code produce false = .exitedSilently ∧
    workerIter true code produce false ≠ .panicked ∧
    workerIter true code produce false ≠ .reportedError := by
  unfold workerIter
  rw [hmapped]
  exact ⟨rfl, by simp, by simp⟩

/-- Witness for C7 at the debug-frame event code 20 with the consumer gone. -/
theorem c7_worker_silent_exit_witness :
    eventFromCode 20 = some .dbgFrameAvailable ∧
    workerIter true 20 (fun _ => (0 : Nat)) false = .exitedSilently :=
  ⟨by decide,
   (c7_worker_silent_exit Nat 20 (fun _ => 0) .dbgFrameAvailable (by decide)).1⟩

/-! ### Pause-gate transition system (`EventRx` and its worker)

The worker thread and the pause-gate it shares with `EventRx` are modelled
as a small transition system: the worker is at the gate check at the top of
its loop, parked inside `signal.wait`, or inside the blocking native wait.
Each `wstep` consumes one element of the stream of values the injected wait
function would deliver — while the worker is parked those firings change
nothing, which is exactly the spec's pause scenario. -/

inductive WPhase
  | atCheck
  | parked
  | atWait
deriving DecidableEq

structure RxConfig where
  gate : Bool
  phase : WPhase
  queue : List Nat
deriving DecidableEq

/-- A freshly constructed receiver: `Mutex::new(false)` (Paused), worker at
the top of its loop, empty channel. -/
def rxInit : RxConfig := { gate := false, phase := .atCheck, queue := [] }

/-- One worker step.  At the gate check an open gate lets it into the
blocking wait and a closed gate parks it; a parked worker re-checks the gate
when it opens and otherwise stays parked (`while !running { wait }`); a
completed wait pushes the produced value and returns to the loop top. -/
def wstep (c : RxConfig) (d : Nat) : RxConfig :=
  match c.phase with
  | .atCheck => if c.gate then { c with phase := .atWait } else { c with phase := .parked }
  | .parked => if c.gate then { c with phase := .atCheck } else c
  | .atWait => { c with phase := .atCheck, queue := c.queue ++ [d] }

/-- Run the worker over a stream of wait-function firings. -/
def wsteps (c : RxConfig) : List Nat → RxConfig
  | [] => c
  | d :: ds => wsteps (wstep c d) ds

/-- `EventRx::start`: set the gate and signal the condition variable. -/
def rxStart (c : RxConfig) : RxConfig := { c with gate := true }

/-- `EventRx::stop`: clear the gate (the worker parks before its next wait). -/
def rxStop (c : RxConfig) : RxConfig := { c with gate := false }

/-- Consumer-side poll of the channel (the worker is alive throughout). -/
def rxReceive (c : RxConfig) : Option Nat × RxConfig :=
  match c.queue with
  | [] => (none, c)
  | x :: rest => (some x, { c with queue := rest })

theorem wsteps_parked (q : List Nat) :
    ∀ ds : List Nat, wsteps ⟨false, .parked, q⟩ ds = ⟨false, .parked, q⟩ := by
  intro ds
  induction ds with
  | nil => rfl
  | cons d rest ih => exact ih

/-- C8: pause semantics.  A receiver begins Paused; after `stop()` the
worker's next loop iteration parks it on the gate instead of entering the
wait, and however often the injected wait function would keep firing, the
queue never grows and polling `receive()` keeps returning none; `start()`
on the very same receiver reopens the gate, after which the parked worker
re-enters the wait and delivery resumes through the same queue. -/
theorem c8_pause_resume (g : Bool) (q : List Nat) (d : Nat) (ds : List Nat)
    (x y z : Nat) :
    rxInit.gate = false ∧
    wstep (rxStop ⟨g, .atCheck, q⟩) d = ⟨false, .parked, q⟩ ∧
    wsteps (rxStop ⟨g, .atCheck, q⟩) (d :: ds) = ⟨false, .parked, q⟩ ∧
    (rxReceive (wsteps (rxStop ⟨g, .atCheck, []⟩) (d :: ds))).1 = none ∧
    (rxReceive (wsteps (rxStart ⟨false, .parked, []⟩) [x, y, z])).1 = some z := by
  have hpark : wstep (rxStop ⟨g, .atCheck, q⟩) d = ⟨false, .parked, q⟩ := rfl
  have hsteps : wsteps (rxStop ⟨g, .atCheck, q⟩) (d :: ds) = ⟨false, .parked, q⟩ := by
    show wsteps (wstep (rxStop ⟨g, .atCheck, q⟩) d) ds = _
    rw [hpark]
    exact wsteps_parked q ds
  have hsteps0 : wsteps (rxStop ⟨g, .atCheck, []⟩) (d :: ds) = ⟨false, .parked, []⟩ := by
    show wsteps (wstep (rxStop ⟨g, .atCheck, []⟩) d) ds = _
    rw [show wstep (rxStop ⟨g, .atCheck, []⟩) d = ⟨false, .parked, []⟩ from rfl]
    exact wsteps_parked [] ds
  refine ⟨rfl, hpark, hsteps, ?_, rfl⟩
  rw [hsteps0]
  rfl
